import Mathlib

/-!
Shallow embedding of the bingers progress store and catalog client
(src/user_data.rs, src/tvmaze_api.rs, src/app.rs, src/errors.rs).

Machine integers (`usize`, `u32`, `u64`) are modelled as `Nat`; `chrono`
timestamps (`DateTime<Utc>`) are modelled as `Int` with their chronological
order; `String` stays `String`.  Vectors become `List`, in-place mutation
becomes explicit state passing.  Rust's stable `Vec::sort`/`sort_by` is
modelled by Mathlib's stable `List.insertionSort` over the same total
preorder.  File I/O and JSON (de)serialization are abstracted: persistence
is modelled at the level of the already-decoded document.
-/

namespace Bingers

/-- Comparison of `usize` values, mirroring `Ord for usize`. -/
def natCmp (x y : Nat) : Ordering :=
  if x < y then Ordering.lt else if x = y then Ordering.eq else Ordering.gt

/-- Comparison of timestamps (`DateTime<Utc>` modelled as `Int`), chronological order. -/
def intCmp (x y : Int) : Ordering :=
  if x < y then Ordering.lt else if x = y then Ordering.eq else Ordering.gt

/-- `Network` from tvmaze_api.rs. -/
structure Network where
  id : Nat
  name : String
deriving DecidableEq

/-- `Day` from tvmaze_api.rs. -/
inductive Day where
  | Monday | Tuesday | Wednesday | Thursday | Friday | Saturday | Sunday
deriving DecidableEq

/-- `Schedule` from tvmaze_api.rs. -/
structure Schedule where
  days : List Day
deriving DecidableEq

/-- `Status` from tvmaze_api.rs. -/
inductive Status where
  | ToBeDetermined | InDevelopment | Running | Ended
deriving DecidableEq

/-- `Show` from tvmaze_api.rs. -/
structure Show where
  id : Nat
  name : String
  language : Option String
  network : Option Network
  web_channel : Option Network
  status : Status
  runtime : Option Nat
  schedule : Schedule
  last_updated : Nat
  last_watched_episode : Nat × Nat
deriving DecidableEq

/-- `Episode` from tvmaze_api.rs. -/
structure Episode where
  episode_id : Nat
  show_id : Nat
  name : String
  season : Nat
  number : Nat
  airstamp : Option Int
  runtime : Nat
  watched : Bool
deriving DecidableEq

/-- `Ord for Episode` (tvmaze_api.rs lines 172-184): lexicographic by
(show_id, season, number). -/
def Episode.cmp (a b : Episode) : Ordering :=
  if a.show_id = b.show_id then
    if a.season = b.season then natCmp a.number b.number
    else natCmp a.season b.season
  else natCmp a.show_id b.show_id

/-- The non-strict order induced by `Episode.cmp`, as used by the stable sort. -/
def Episode.leP (a b : Episode) : Prop := Episode.cmp a b ≠ Ordering.gt

instance : DecidableRel Episode.leP :=
  fun a b => inferInstanceAs (Decidable (Episode.cmp a b ≠ Ordering.gt))

/-- The non-strict order induced by `Ord for Show` (comparison by id). -/
def Show.leP (a b : Show) : Prop := a.id ≤ b.id

instance : DecidableRel Show.leP := fun a b => Nat.decLe a.id b.id

/-- `episode_is_greater_than` from user_data.rs lines 15-21. -/
def episode_is_greater_than (e : Episode) (p : Nat × Nat) : Bool :=
  if e.season = p.1 then decide (p.2 < e.number) else decide (p.1 < e.season)

/-- `episode_is_less_than` from user_data.rs lines 23-29. -/
def episode_is_less_than (e : Episode) (p : Nat × Nat) : Bool :=
  if e.season = p.1 then decide (e.number < p.2) else decide (e.season < p.1)

/-- `UserDataV1` from user_data.rs: the in-memory store state (the `path`
field of `UserData` is a file-system detail and is not modelled). -/
structure UserDataV1 where
  version : Nat
  subscribed_shows : List Show
  unwatched_episodes : List Episode
deriving DecidableEq

/-- `VERSION` from user_data.rs line 11. -/
def VERSION : Nat := 1

/-- The persisted on-disk document `{version, subscribed_shows, unwatched_episodes}`,
at the level after JSON decoding. -/
structure PersistedDocument where
  version : Nat
  subscribed_shows : List Show
  unwatched_episodes : List Episode
deriving DecidableEq

/-- The `UserDataVersionMismatch` error kind from errors.rs lines 25-28. -/
inductive LoadError where
  | userDataVersionMismatch (expected actual : Nat)
deriving DecidableEq

/-- The `DetectVersion` probe: parsing only the `version` field of the document. -/
def detectVersion (d : PersistedDocument) : Nat := d.version

/-- The pure core of `UserData::load` (user_data.rs lines 69-93) on an
already-read and decoded document: inspect the version first, reject
documents newer than this build, otherwise deserialize the whole document. -/
def loadFromDocument (d : PersistedDocument) : Except LoadError UserDataV1 :=
  if detectVersion d > VERSION then
    Except.error (LoadError.userDataVersionMismatch VERSION (detectVersion d))
  else
    Except.ok { version := d.version
                subscribed_shows := d.subscribed_shows
                unwatched_episodes := d.unwatched_episodes }

/-- The pure core of `UserData::store` (user_data.rs lines 107-138): the
document serialized to disk is exactly `self.data`. -/
def storeDocument (u : UserDataV1) : PersistedDocument :=
  { version := u.version
    subscribed_shows := u.subscribed_shows
    unwatched_episodes := u.unwatched_episodes }

/-- Rust's stable `Vec::sort` on shows (by `Ord for Show`, i.e. by id). -/
def sortShows (l : List Show) : List Show := List.insertionSort Show.leP l

/-- Rust's stable `Vec::sort` on episodes (by `Ord for Episode`). -/
def sortEpisodes (l : List Episode) : List Episode := List.insertionSort Episode.leP l

/-- `Vec::contains` on shows: uses `PartialEq for Show`, which compares ids only. -/
def containsShow (l : List Show) (s : Show) : Bool := l.any (fun x => x.id == s.id)

/-- `Vec::contains` on episodes: uses `PartialEq for Episode`, which compares
(episode_id, show_id). -/
def containsEpisode (l : List Episode) (e : Episode) : Bool :=
  l.any (fun x => x.episode_id == e.episode_id && x.show_id == e.show_id)

/-- `UserData::add_show` (user_data.rs lines 193-199). -/
def add_show (u : UserDataV1) (s : Show) : UserDataV1 :=
  if containsShow u.subscribed_shows s then u
  else { u with subscribed_shows := sortShows (u.subscribed_shows ++ [s]) }

/-- The insertion loop of `UserData::add_episodes`: push each episode not
already present, tracking whether anything was added. -/
def addEpisodesLoop (acc : List Episode) (added : Bool) : List Episode → List Episode × Bool
  | [] => (acc, added)
  | e :: rest =>
    if containsEpisode acc e then addEpisodesLoop acc added rest
    else addEpisodesLoop (acc ++ [e]) true rest

/-- `UserData::add_episodes` (user_data.rs lines 201-213): insert the absent
episodes, then re-sort only if at least one was inserted. -/
def add_episodes (u : UserDataV1) (es : List Episode) : UserDataV1 :=
  let r := addEpisodesLoop u.unwatched_episodes false es
  if r.2 then { u with unwatched_episodes := sortEpisodes r.1 }
  else { u with unwatched_episodes := r.1 }

/-- `UserData::remove_episodes` (user_data.rs lines 215-219). -/
def remove_episodes (u : UserDataV1) (s : Show) : UserDataV1 :=
  { u with unwatched_episodes := u.unwatched_episodes.filter (fun e => !(e.show_id == s.id)) }

/-- `UserData::remove_show` (user_data.rs lines 221-225); `PartialEq for Show`
compares ids only. -/
def remove_show (u : UserDataV1) (s : Show) : UserDataV1 :=
  { u with subscribed_shows := u.subscribed_shows.filter (fun x => !(x.id == s.id)) }

/-- `UserData::mark_next_episode_as_watched` (user_data.rs lines 323-337):
mark the first not-yet-watched episode of the show (in list order) and stop. -/
def markNextEpisode (sid : Nat) : List Episode → Option (Nat × Nat) × List Episode
  | [] => (none, [])
  | e :: rest =>
    if e.show_id = sid ∧ e.watched = false then
      (some (e.season, e.number), { e with watched := true } :: rest)
    else
      let r := markNextEpisode sid rest
      (r.1, e :: r.2)

/-- `UserData::mark_episode_as_watched` (user_data.rs lines 339-358): mark
every matching not-yet-watched episode; the returned pair is the one of the
last match in iteration order. -/
def markEpisodeExact (sid season number : Nat) : List Episode → Option (Nat × Nat) × List Episode
  | [] => (none, [])
  | e :: rest =>
    let r := markEpisodeExact sid season number rest
    if e.show_id = sid ∧ e.season = season ∧ e.number = number ∧ e.watched = false then
      (some (r.1.getD (e.season, e.number)), { e with watched := true } :: r.2)
    else (r.1, e :: r.2)

/-- `UserData::mark_season_as_watched` (user_data.rs lines 360-371): mark every
not-yet-watched episode of the season; the returned pair is the one of the
last match in iteration order. -/
def markSeason (sid season : Nat) : List Episode → Option (Nat × Nat) × List Episode
  | [] => (none, [])
  | e :: rest =>
    let r := markSeason sid season rest
    if e.show_id = sid ∧ e.season = season ∧ e.watched = false then
      (some (r.1.getD (e.season, e.number)), { e with watched := true } :: r.2)
    else (r.1, e :: r.2)

/-- The marking dispatch of `mark_as_watched` (user_data.rs lines 244-249). -/
def markPhase (sid : Nat) (season episode : Option Nat) (l : List Episode) :
    Option (Nat × Nat) × List Episode :=
  match season, episode with
  | some s, none => markSeason sid s l
  | some s, some n => markEpisodeExact sid s n l
  | none, none => markNextEpisode sid l
  | none, some _ => (none, l)

/-- The pointer-lookup loop of `mark_as_watched` (user_data.rs lines 258-266):
walk the show list with its index, remembering the pointer and index of the
last show whose id matches. -/
def findShowPointerAux (sid : Nat) : List Show → Nat → (Nat × Nat) → Option Nat →
    (Nat × Nat) × Option Nat
  | [], _, lw, idx => (lw, idx)
  | s :: rest, i, lw, idx =>
    if s.id = sid then findShowPointerAux sid rest (i + 1) s.last_watched_episode (some i)
    else findShowPointerAux sid rest (i + 1) lw idx

/-- Pointer lookup starting from `(0, 0)` and no index, as in the source. -/
def findShowPointer (shows : List Show) (sid : Nat) : (Nat × Nat) × Option Nat :=
  findShowPointerAux sid shows 0 (0, 0) none

/-- The watch pointer of show `sid` as `mark_as_watched` reads it. -/
def pointerOf (u : UserDataV1) (sid : Nat) : Nat × Nat :=
  (findShowPointer u.subscribed_shows sid).1

/-- The gap test of `mark_as_watched` (user_data.rs lines 268-278): is there a
still-unwatched episode of the show strictly between the pointer and the
last-marked pair? -/
def hasGap (eps : List Episode) (sid : Nat) (lw lm : Nat × Nat) : Bool :=
  eps.any (fun e =>
    decide (e.show_id = sid) && !e.watched &&
    episode_is_greater_than e lw && episode_is_less_than e lm)

/-- The stateful `retain` of `mark_as_watched` (user_data.rs lines 286-310):
scan forward; drop watched episodes of the show above the moving pointer,
advancing it, until the first kept episode of the show sets `stop`. -/
def cleanupWatched (sid : Nat) : List Episode → (Nat × Nat) → Bool →
    List Episode × (Nat × Nat)
  | [], lw, _ => ([], lw)
  | e :: rest, lw, stop =>
    if e.show_id = sid ∧ episode_is_greater_than e lw = true then
      if e.watched = true ∧ stop = false then
        cleanupWatched sid rest (e.season, e.number) stop
      else
        let r := cleanupWatched sid rest lw true
        (e :: r.1, r.2)
    else
      let r := cleanupWatched sid rest lw stop
      (e :: r.1, r.2)

/-- Write the advanced pointer back onto the show record at the given index
(user_data.rs lines 312-314). -/
def setPointerAt : List Show → Nat → (Nat × Nat) → List Show
  | [], _, _ => []
  | s :: rest, 0, p => { s with last_watched_episode := p } :: rest
  | s :: rest, i + 1, p => s :: setPointerAt rest i p

/-- The post-mark reconciliation of `mark_as_watched` (user_data.rs
lines 251-316): with a gap, keep everything; without one, run the cleanup
walk and persist the advanced pointer. -/
def reconcile (u : UserDataV1) (sid : Nat) (eps : List Episode) (lm : Nat × Nat) : UserDataV1 :=
  if hasGap eps sid (findShowPointer u.subscribed_shows sid).1 lm then
    { u with unwatched_episodes := eps }
  else
    { u with
      unwatched_episodes :=
        (cleanupWatched sid eps (findShowPointer u.subscribed_shows sid).1 false).1
      subscribed_shows :=
        match (findShowPointer u.subscribed_shows sid).2 with
        | some i =>
          setPointerAt u.subscribed_shows i
            (cleanupWatched sid eps (findShowPointer u.subscribed_shows sid).1 false).2
        | none => u.subscribed_shows }

/-- `UserData::mark_as_watched` (user_data.rs lines 237-319). -/
def mark_as_watched (u : UserDataV1) (sid : Nat) (season episode : Option Nat) :
    Option (Nat × Nat) × UserDataV1 :=
  match (markPhase sid season episode u.unwatched_episodes).1 with
  | none =>
    (none, { u with
      unwatched_episodes := (markPhase sid season episode u.unwatched_episodes).2 })
  | some lm =>
    (some lm, reconcile u sid (markPhase sid season episode u.unwatched_episodes).2 lm)

/-- The in-place field update of `UserData::update_episode` (user_data.rs
lines 426-468) on the first episode whose `episode_id` matches; `none` when
no episode matches. -/
def updateEpisodeList (e : Episode) : List Episode → Option (List Episode)
  | [] => none
  | x :: rest =>
    if x.episode_id = e.episode_id then
      some ({ x with
              name := e.name
              season := e.season
              number := e.number
              airstamp := e.airstamp
              runtime := e.runtime } :: rest)
    else
      match updateEpisodeList e rest with
      | some l => some (x :: l)
      | none => none

/-- `UserData::update_episode`: returns whether the episode was found, plus
the updated store. -/
def update_episode (u : UserDataV1) (e : Episode) : Bool × UserDataV1 :=
  match updateEpisodeList e u.unwatched_episodes with
  | some l => (true, { u with unwatched_episodes := l })
  | none => (false, u)

/-- The air-time comparator shared by `unwatched_episodes_oldest_first`
(user_data.rs lines 183-188) and the new-episode sort in `App::update`
(app.rs lines 635-640). -/
def airCmp (a b : Episode) : Ordering :=
  match a.airstamp, b.airstamp with
  | some da, some db => intCmp da db
  | some _, none => Ordering.gt
  | none, some _ => Ordering.lt
  | none, none => Episode.cmp b a

/-- The non-strict order induced by `airCmp`, as used by the stable `sort_by`. -/
def oldestFirstLe (a b : Episode) : Prop := airCmp a b ≠ Ordering.gt

instance : DecidableRel oldestFirstLe :=
  fun a b => inferInstanceAs (Decidable (airCmp a b ≠ Ordering.gt))

/-- Stable `sort_by` with the air-time comparator (both call sites). -/
def sortByAirtime (l : List Episode) : List Episode := List.insertionSort oldestFirstLe l

/-- `UserData::unwatched_episodes_oldest_first` (user_data.rs lines 176-191). -/
def unwatched_episodes_oldest_first (u : UserDataV1) : List Episode :=
  sortByAirtime u.unwatched_episodes

/-! Catalog client retry machinery (tvmaze_api.rs). -/

/-- The error taxonomy relevant to the retry condition (errors.rs): the
`HttpError(status, uri)` kind, and everything else (transport errors,
malformed bodies, ...) collapsed into `other`. -/
inductive CatalogError where
  | httpError (status : Nat) (uri : String)
  | other
deriving DecidableEq

/-- The outcome the network produces for one attempt: a transport failure, or
a response with a status code and a body. -/
inductive AttemptOutcome where
  | transportError
  | response (status : Nat) (body : String)
deriving DecidableEq

/-- `TvMazeApi::create_get_request` (tvmaze_api.rs lines 229-251): any status
other than 200 OK becomes `HttpError(status, uri)`. -/
def create_get_request (uri : String) (o : AttemptOutcome) : Except CatalogError String :=
  match o with
  | AttemptOutcome.transportError => Except.error CatalogError.other
  | AttemptOutcome.response status body =>
    if status ≠ 200 then Except.error (CatalogError.httpError status uri)
    else Except.ok body

/-- The retry condition passed to `RetryIf::spawn` (tvmaze_api.rs
lines 269-272): retry only on `HttpError` with status 429. -/
def shouldRetry : CatalogError → Bool
  | CatalogError.httpError status _ => status == 429
  | CatalogError.other => false

/-- `tokio_retry::strategy::FibonacciBackoff::from_millis`: the stream of
delays in milliseconds, of which `n` are taken. -/
def fibonacciBackoffDelays : Nat → Nat → Nat → List Nat
  | 0, _, _ => []
  | n + 1, curr, next => curr :: fibonacciBackoffDelays n next (curr + next)

/-- `FibonacciBackoff::from_millis(1000).take(6)` (tvmaze_api.rs line 261). -/
def retryStrategy : List Nat := fibonacciBackoffDelays 6 1000 1000

instance instDecEqExcept {ε α : Type} [DecidableEq ε] [DecidableEq α] :
    DecidableEq (Except ε α) := fun a b =>
  match a, b with
  | Except.ok x, Except.ok y => decidable_of_iff (x = y) (by simp)
  | Except.ok _, Except.error _ => isFalse (fun h => Except.noConfusion h)
  | Except.error _, Except.ok _ => isFalse (fun h => Except.noConfusion h)
  | Except.error x, Except.error y => decidable_of_iff (x = y) (by simp)

/-- Modelled from the semantics of `tokio_retry::RetryIf::spawn`: run the
action once; on an error, if the condition holds and the delay iterator
yields another delay, wait and retry, otherwise return the error.  The
action is indexed by the attempt number (0-based) and the second component
counts the attempts performed. -/
def retryIf : List Nat → (CatalogError → Bool) → (Nat → Except CatalogError String) →
    Nat → Except CatalogError String × Nat
  | [], _, action, attempt =>
    match action attempt with
    | Except.ok a => (Except.ok a, attempt + 1)
    | Except.error e => (Except.error e, attempt + 1)
  | _ :: rest, cond, action, attempt =>
    match action attempt with
    | Except.ok a => (Except.ok a, attempt + 1)
    | Except.error e =>
      if cond e then retryIf rest cond action (attempt + 1)
      else (Except.error e, attempt + 1)

/-- `TvMazeApi::make_get_request` (tvmaze_api.rs lines 257-280): the retry
wrapper around `create_get_request`, with the network's per-attempt outcomes
supplied as an oracle. -/
def make_get_request (uri : String) (outcomes : Nat → AttemptOutcome) :
    Except CatalogError String × Nat :=
  retryIf retryStrategy shouldRetry (fun i => create_get_request uri (outcomes i)) 0

/-! Auxiliary notions used by the claims. -/

/-- Non-decreasing order on (season, number) pairs, lexicographic. -/
def epNumLe (p q : Nat × Nat) : Prop := p.1 < q.1 ∨ (p.1 = q.1 ∧ p.2 ≤ q.2)

/-- An episode slot after a marking pass: unchanged, or the same episode with
its watched flag set. -/
def markedEq (a b : Episode) : Prop := b = a ∨ b = { a with watched := true }

/-- Two episodes with the same sort key (show id, season, number). -/
def epKeysEq (a b : Episode) : Prop :=
  a.show_id = b.show_id ∧ a.season = b.season ∧ a.number = b.number

/-- The show collection holds no two elements with the same id. -/
def showsUnique (l : List Show) : Prop := (l.map (fun s => s.id)).Nodup

instance (l : List Show) : Decidable (showsUnique l) :=
  inferInstanceAs (Decidable (List.Nodup (l.map (fun s : Show => s.id))))

/-- The episode collection holds no two elements with the same
(episode id, show id). -/
def epsUnique (l : List Episode) : Prop :=
  (l.map (fun e => (e.episode_id, e.show_id))).Nodup

instance (l : List Episode) : Decidable (epsUnique l) :=
  inferInstanceAs
    (Decidable (List.Nodup (l.map (fun e : Episode => (e.episode_id, e.show_id)))))

/-- The unwatched list is sorted by the Episode ordering. -/
def sortedEps (l : List Episode) : Prop := List.Pairwise Episode.leP l

instance (l : List Episode) : Decidable (sortedEps l) :=
  inferInstanceAs (Decidable (List.Pairwise Episode.leP l))

/-- Every episode without an air timestamp sorts after all episodes that have
one (the ordering property C7 asserts of the output). -/
def noTimestampLast (l : List Episode) : Prop :=
  List.Pairwise (fun a b => a.airstamp = none → b.airstamp = none) l

instance (l : List Episode) : Decidable (noTimestampLast l) :=
  inferInstanceAs
    (Decidable (List.Pairwise (fun a b : Episode => a.airstamp = none → b.airstamp = none) l))

/-- Identity set of a show collection (ids). -/
def showIdSet (l : List Show) : Finset Nat := (l.map (fun s => s.id)).toFinset

/-- Identity set of an episode collection ((episode id, show id) pairs). -/
def episodeKeySet (l : List Episode) : Finset (Nat × Nat) :=
  (l.map (fun e => (e.episode_id, e.show_id))).toFinset

/-- A subscription/ingestion call, for stating properties of call sequences. -/
inductive AddOp where
  | addShowOp (s : Show)
  | addEpsOp (es : List Episode)

/-- Run a sequence of add calls against the store. -/
def runAddOps (u : UserDataV1) (ops : List AddOp) : UserDataV1 :=
  ops.foldl (fun st op =>
    match op with
    | AddOp.addShowOp s => add_show st s
    | AddOp.addEpsOp es => add_episodes st es) u

/-- A mutating store operation, for stating properties of call sequences. -/
inductive StoreOp where
  | addEps (es : List Episode)
  | mark (sid : Nat) (season episode : Option Nat)
  | removeEps (s : Show)
  | updateEp (e : Episode)

/-- Apply one store operation. -/
def applyStoreOp (u : UserDataV1) : StoreOp → UserDataV1
  | StoreOp.addEps es => add_episodes u es
  | StoreOp.mark sid season episode => (mark_as_watched u sid season episode).2
  | StoreOp.removeEps s => remove_episodes u s
  | StoreOp.updateEp e => (update_episode u e).2

/-- Operations that never rewrite an episode's sort key. -/
def keepsKeys : StoreOp → Bool
  | StoreOp.updateEp _ => false
  | _ => true

/-- Run a sequence of `mark_as_watched` calls for one show. -/
def markCalls (u : UserDataV1) (sid : Nat) (calls : List (Option Nat × Option Nat)) :
    UserDataV1 :=
  calls.foldl (fun st c => (mark_as_watched st sid c.1 c.2).2) u

/-- Run a sequence of exact (season, number) marks for one show. -/
def markSeq (u : UserDataV1) (sid : Nat) (ps : List (Nat × Nat)) : UserDataV1 :=
  ps.foldl (fun st p => (mark_as_watched st sid (some p.1) (some p.2)).2) u

/-! Concrete fixtures used by the concrete parts of the claims. -/

/-- A subscribed show with id 1 and watch pointer (0, 0). -/
def show1 : Show :=
  { id := 1, name := "", language := none, network := none, web_channel := none
    status := Status.Running, runtime := none, schedule := { days := [] }
    last_updated := 0, last_watched_episode := (0, 0) }

/-- Build an episode fixture. -/
def mkEp (eid sid s n : Nat) (air : Option Int) (w : Bool) : Episode :=
  { episode_id := eid, show_id := sid, name := "", season := s, number := n
    airstamp := air, runtime := 60, watched := w }

/-- The C1 scenario store: pointer (0,0), unwatched (1,1), (1,2), (1,3), (1,4). -/
def u0 : UserDataV1 :=
  { version := 1
    subscribed_shows := [show1]
    unwatched_episodes :=
      [mkEp 11 1 1 1 (some 1) false, mkEp 12 1 1 2 (some 2) false,
       mkEp 13 1 1 3 (some 3) false, mkEp 14 1 1 4 (some 4) false] }

/-- The C1 scenario store after marking (1, 4). -/
def c1AfterFirst : UserDataV1 := (mark_as_watched u0 1 (some 1) (some 4)).2

/-- The six orders in which (1,1), (1,2), (1,3) can be marked. -/
def c1Orders : List (List (Nat × Nat)) :=
  [[(1, 1), (1, 2), (1, 3)], [(1, 1), (1, 3), (1, 2)],
   [(1, 2), (1, 1), (1, 3)], [(1, 2), (1, 3), (1, 1)],
   [(1, 3), (1, 1), (1, 2)], [(1, 3), (1, 2), (1, 1)]]

/-- A store whose unwatched list mixes a dated and an undated episode. -/
def u7 : UserDataV1 :=
  { version := 1
    subscribed_shows := [show1]
    unwatched_episodes := [mkEp 1 1 1 1 (some 5) false, mkEp 2 1 1 2 none false] }

/-- A sorted two-episode store for the update_episode counterexample. -/
def u9 : UserDataV1 :=
  { version := 1
    subscribed_shows := [show1]
    unwatched_episodes := [mkEp 1 1 1 1 none false, mkEp 2 1 1 2 none false] }

/-- A refreshed record for episode id 1 that moves it to season 1 number 3. -/
def e9 : Episode := mkEp 1 1 1 3 none false

/-- An endpoint oracle answering 429 for the first six attempts, then 200. -/
def out6 : Nat → AttemptOutcome := fun i =>
  if i < 6 then AttemptOutcome.response 429 "" else AttemptOutcome.response 200 "payload"

/-! Order lemmas for the embedded comparators. -/

theorem natCmp_eq_gt_iff (x y : Nat) : natCmp x y = Ordering.gt ↔ y < x := by
  unfold natCmp
  by_cases h1 : x < y
  · simp [h1]; omega
  · by_cases h2 : x = y
    · simp [h1, h2]
    · simp [h1, h2]; omega

theorem intCmp_eq_gt_iff (x y : Int) : intCmp x y = Ordering.gt ↔ y < x := by
  unfold intCmp
  by_cases h1 : x < y
  · simp [h1]; omega
  · by_cases h2 : x = y
    · simp [h1, h2]
    · simp [h1, h2]; omega

theorem Episode.cmp_eq_gt_iff (a b : Episode) :
    Episode.cmp a b = Ordering.gt ↔
      (b.show_id < a.show_id ∨
        (a.show_id = b.show_id ∧
          (b.season < a.season ∨ (a.season = b.season ∧ b.number < a.number)))) := by
  unfold Episode.cmp
  split
  next h1 =>
    split
    next h2 => rw [natCmp_eq_gt_iff]; omega
    next h2 => rw [natCmp_eq_gt_iff]; omega
  next h1 => rw [natCmp_eq_gt_iff]; omega

theorem Episode.leP_iff (a b : Episode) :
    Episode.leP a b ↔
      (a.show_id < b.show_id ∨
        (a.show_id = b.show_id ∧
          (a.season < b.season ∨ (a.season = b.season ∧ a.number ≤ b.number)))) := by
  unfold Episode.leP
  simp only [ne_eq, Episode.cmp_eq_gt_iff]
  omega

instance : IsTotal Episode Episode.leP :=
  ⟨fun a b => by rw [Episode.leP_iff a b, Episode.leP_iff b a]; omega⟩

instance : IsTrans Episode Episode.leP :=
  ⟨fun a b c hab hbc => by
    rw [Episode.leP_iff a b] at hab
    rw [Episode.leP_iff b c] at hbc
    rw [Episode.leP_iff a c]
    omega⟩

instance : IsTotal Show Show.leP := ⟨fun a b => Nat.le_total a.id b.id⟩

instance : IsTrans Show Show.leP := ⟨fun _ _ _ hab hbc => Nat.le_trans hab hbc⟩

theorem oldestFirstLe_total (a b : Episode) : oldestFirstLe a b ∨ oldestFirstLe b a := by
  unfold oldestFirstLe airCmp
  rcases a.airstamp with _ | ta <;> rcases b.airstamp with _ | tb <;> dsimp only
  · simp only [ne_eq, Episode.cmp_eq_gt_iff]; omega
  · exact Or.inl (by decide)
  · exact Or.inr (by decide)
  · simp only [ne_eq, intCmp_eq_gt_iff]; omega

theorem oldestFirstLe_trans (a b c : Episode) :
    oldestFirstLe a b → oldestFirstLe b c → oldestFirstLe a c := by
  unfold oldestFirstLe airCmp
  rcases a.airstamp with _ | ta <;> rcases b.airstamp with _ | tb <;>
    rcases c.airstamp with _ | tc <;> dsimp only
  · intro hab hbc
    simp only [ne_eq, Episode.cmp_eq_gt_iff] at hab hbc ⊢
    omega
  · exact fun _ _ => by decide
  · exact fun _ h => absurd rfl h
  · exact fun _ _ => by decide
  · exact fun h _ => absurd rfl h
  · exact fun h _ => absurd rfl h
  · exact fun _ h => absurd rfl h
  · intro hab hbc
    simp only [ne_eq, intCmp_eq_gt_iff] at hab hbc ⊢
    omega

instance : IsTotal Episode oldestFirstLe := ⟨oldestFirstLe_total⟩

instance : IsTrans Episode oldestFirstLe := ⟨fun a b c => oldestFirstLe_trans a b c⟩

/-! Easy claims: local error handling, frame conditions, persistence. -/

/-- Claim C4: calling `mark_as_watched` with an episode number but no season
returns nothing and leaves the whole store unchanged; the caller error is
handled locally and never propagated as a failure. -/
theorem c4_episode_without_season (u : UserDataV1) (sid e : Nat) :
    mark_as_watched u sid none (some e) = (none, u) := rfl

/-- Witness for C4: concrete instance on the fixture store. -/
theorem c4_witness : mark_as_watched u0 1 none (some 2) = (none, u0) :=
  c4_episode_without_season u0 1 2

/-- Claim C10: `remove_show` modifies only the subscribed-show collection,
leaving the unwatched-episode collection (hence every episode of the removed
show) untouched, and `remove_episodes` modifies only the unwatched-episode
collection, leaving the subscribed shows with all their watch pointers
untouched. -/
theorem c10_remove_frame (u : UserDataV1) (s : Show) :
    (remove_show u s).unwatched_episodes = u.unwatched_episodes ∧
    (remove_show u s).version = u.version ∧
    (remove_episodes u s).subscribed_shows = u.subscribed_shows ∧
    (remove_episodes u s).version = u.version ∧
    ∀ e ∈ u.unwatched_episodes, e ∈ (remove_show u s).unwatched_episodes :=
  ⟨rfl, rfl, rfl, rfl, fun _ he => he⟩

/-- Witness for C10: concrete instance on the fixture store. -/
theorem c10_witness :
    (remove_show u0 show1).unwatched_episodes = u0.unwatched_episodes ∧
    (remove_show u0 show1).version = u0.version ∧
    (remove_episodes u0 show1).subscribed_shows = u0.subscribed_shows ∧
    (remove_episodes u0 show1).version = u0.version ∧
    ∀ e ∈ u0.unwatched_episodes, e ∈ (remove_show u0 show1).unwatched_episodes :=
  c10_remove_frame u0 show1

/-- Claim C5: loading a persisted document whose version field exceeds the
build's known version fails with the distinguished version-mismatch error and
populates no store. -/
theorem c5_version_rejection (d : PersistedDocument) (h : VERSION < d.version) :
    loadFromDocument d =
      Except.error (LoadError.userDataVersionMismatch VERSION d.version) := by
  unfold loadFromDocument detectVersion
  rw [if_pos h]

/-- Witness for C5: a concrete version-2 document is rejected. -/
theorem c5_witness :
    VERSION < (2 : Nat) ∧
    loadFromDocument { version := 2, subscribed_shows := [], unwatched_episodes := [] } =
      Except.error (LoadError.userDataVersionMismatch VERSION 2) :=
  ⟨by decide,
   c5_version_rejection
     { version := 2, subscribed_shows := [], unwatched_episodes := [] } (by decide)⟩

/-- Claim C8: saving a valid in-memory store and loading the resulting
document back yields a store whose show identity set (by id) and episode
identity set (by (episode id, show id)) equal the saved ones. -/
theorem c8_round_trip (u : UserDataV1) (h : u.version ≤ VERSION) :
    ∃ u2 : UserDataV1,
      loadFromDocument (storeDocument u) = Except.ok u2 ∧
      showIdSet u2.subscribed_shows = showIdSet u.subscribed_shows ∧
      episodeKeySet u2.unwatched_episodes = episodeKeySet u.unwatched_episodes := by
  refine ⟨u, ?_, rfl, rfl⟩
  unfold loadFromDocument storeDocument detectVersion
  dsimp only
  rw [if_neg (by omega)]

/-- Witness for C8: the empty store round-trips. -/
theorem c8_witness :
    ({ version := 1, subscribed_shows := [], unwatched_episodes := [] } : UserDataV1).version
      ≤ VERSION ∧
    ∃ u2 : UserDataV1,
      loadFromDocument
        (storeDocument { version := 1, subscribed_shows := [], unwatched_episodes := [] }) =
        Except.ok u2 ∧
      showIdSet u2.subscribed_shows = showIdSet ([] : List Show) ∧
      episodeKeySet u2.unwatched_episodes = episodeKeySet ([] : List Episode) :=
  ⟨by decide, c8_round_trip { version := 1, subscribed_shows := [], unwatched_episodes := [] }
    (by decide)⟩

/-! Claim C7: the air-time ordering of surfaced episodes. -/

/-- Counterexample to C7: in the store `u7` the oldest-first listing places
the episode with no air timestamp before the dated one, so undated episodes
do not sort last. -/
theorem c7_counterexample : ¬ noTimestampLast (unwatched_episodes_oldest_first u7) := by
  decide

/-- Claim C7 (amended): the air-time sort used for surfacing (both the
reconciler's new-episode sort and the oldest-first listing) orders dated
episodes by timestamp ascending, and every episode with no timestamp sorts
before all episodes that have one. -/
theorem c7_no_timestamp_first :
    (∀ l : List Episode,
      List.Pairwise (fun a b : Episode =>
        (b.airstamp = none → a.airstamp = none) ∧
        ∀ ta tb : Int, a.airstamp = some ta → b.airstamp = some tb → ta ≤ tb)
        (sortByAirtime l)) ∧
    (∀ u : UserDataV1,
      List.Pairwise (fun a b : Episode =>
        (b.airstamp = none → a.airstamp = none) ∧
        ∀ ta tb : Int, a.airstamp = some ta → b.airstamp = some tb → ta ≤ tb)
        (unwatched_episodes_oldest_first u)) := by
  have key : ∀ l : List Episode,
      List.Pairwise (fun a b : Episode =>
        (b.airstamp = none → a.airstamp = none) ∧
        ∀ ta tb : Int, a.airstamp = some ta → b.airstamp = some tb → ta ≤ tb)
        (sortByAirtime l) := by
    intro l
    have hs : List.Pairwise oldestFirstLe (sortByAirtime l) :=
      List.sorted_insertionSort oldestFirstLe l
    refine List.Pairwise.imp ?_ hs
    intro a b hab
    constructor
    · intro hbnone
      rcases ha : a.airstamp with _ | ta
      · rfl
      · exfalso
        apply hab
        unfold airCmp
        rw [ha, hbnone]
    · intro ta tb hta htb
      have : intCmp ta tb ≠ Ordering.gt := by
        intro hgt
        apply hab
        unfold airCmp
        rw [hta, htb]
        exact hgt
      simp only [ne_eq, intCmp_eq_gt_iff] at this
      omega
  exact ⟨key, fun u => key u.unwatched_episodes⟩

/-- Witness for C7 (amended): concrete instance on the mixed store. -/
theorem c7_witness :
    List.Pairwise (fun a b : Episode =>
      (b.airstamp = none → a.airstamp = none) ∧
      ∀ ta tb : Int, a.airstamp = some ta → b.airstamp = some tb → ta ≤ tb)
      (unwatched_episodes_oldest_first u7) :=
  c7_no_timestamp_first.2 u7

/-! Claim C6: the catalog client's retry policy. -/

theorem retryIf_ok (delays : List Nat) (cond : CatalogError → Bool)
    (action : Nat → Except CatalogError String) (a : Nat) (body : String)
    (h : action a = Except.ok body) :
    retryIf delays cond action a = (Except.ok body, a + 1) := by
  cases delays <;> simp [retryIf, h]

theorem retryIf_error_noretry (delays : List Nat) (cond : CatalogError → Bool)
    (action : Nat → Except CatalogError String) (a : Nat) (e : CatalogError)
    (h : action a = Except.error e) (hc : cond e = false) :
    retryIf delays cond action a = (Except.error e, a + 1) := by
  cases delays <;> simp [retryIf, h, hc]

theorem retryIf_succ_after (cond : CatalogError → Bool)
    (action : Nat → Except CatalogError String) (body : String) :
    ∀ (n : Nat) (delays : List Nat) (a : Nat),
      n ≤ delays.length →
      (∀ i, a ≤ i → i < a + n → ∃ e, action i = Except.error e ∧ cond e = true) →
      action (a + n) = Except.ok body →
      retryIf delays cond action a = (Except.ok body, a + n + 1) := by
  intro n
  induction n with
  | zero =>
    intro delays a _ _ hok
    rw [Nat.add_zero] at hok
    exact retryIf_ok delays cond action a body hok
  | succ n ih =>
    intro delays a hlen hfail hok
    cases delays with
    | nil => simp at hlen
    | cons d rest =>
      obtain ⟨e, he, hce⟩ := hfail a (Nat.le_refl a) (by omega)
      have step : retryIf (d :: rest) cond action a = retryIf rest cond action (a + 1) := by
        simp [retryIf, he, hce]
      rw [step]
      have hok2 : action (a + 1 + n) = Except.ok body := by
        have : a + 1 + n = a + (n + 1) := by omega
        rw [this]
        exact hok
      have := ih rest (a + 1) (by simpa using hlen)
        (fun i hi1 hi2 => hfail i (by omega) (by omega)) hok2
      rw [this]
      have : a + 1 + n + 1 = a + (n + 1) + 1 := by omega
      rw [this]

theorem retryIf_all_fail (cond : CatalogError → Bool)
    (action : Nat → Except CatalogError String) (e : CatalogError) (hce : cond e = true) :
    ∀ (delays : List Nat) (a : Nat),
      (∀ i, a ≤ i → i ≤ a + delays.length → action i = Except.error e) →
      retryIf delays cond action a = (Except.error e, a + delays.length + 1) := by
  intro delays
  induction delays with
  | nil =>
    intro a hfail
    have := hfail a (Nat.le_refl a) (by omega)
    simp [retryIf, this]
  | cons d rest ih =>
    intro a hfail
    have he := hfail a (Nat.le_refl a) (by omega)
    have step : retryIf (d :: rest) cond action a = retryIf rest cond action (a + 1) := by
      simp [retryIf, he, hce]
    rw [step, ih (a + 1) (fun i hi1 hi2 => hfail i (by omega) (by simp at hi2 ⊢; omega))]
    have : a + 1 + rest.length + 1 = a + (d :: rest).length + 1 := by simp; omega
    rw [this]

/-- Counterexample to C6: against an endpoint that answers 429 on each of the
first six attempts and 200 afterwards, `make_get_request` succeeds on a
seventh attempt instead of failing terminally after six. -/
theorem c6_counterexample :
    (∀ i, i < 6 → create_get_request "u" (out6 i) =
      Except.error (CatalogError.httpError 429 "u")) ∧
    make_get_request "u" out6 = (Except.ok "payload", 7) := by
  exact ⟨by decide, by decide⟩

/-- Claim C6 (amended): a request is retried with the backoff delays
1s, 1s, 2s, 3s, 5s, 8s between attempts — up to six retries, i.e. seven
attempts total — and only on HTTP 429; any other failure is terminal after a
single attempt; 429 on fewer than seven attempts followed by a success yields
overall success, and 429 on all seven attempts yields a terminal failure. -/
theorem c6_retry_policy :
    retryStrategy = [1000, 1000, 2000, 3000, 5000, 8000] ∧
    (∀ (uri : String) (out : Nat → AttemptOutcome) (e : CatalogError),
      create_get_request uri (out 0) = Except.error e → shouldRetry e = false →
      make_get_request uri out = (Except.error e, 1)) ∧
    (∀ (uri : String) (out : Nat → AttemptOutcome) (n : Nat) (body : String),
      n < 7 →
      (∀ i, i < n → create_get_request uri (out i) =
        Except.error (CatalogError.httpError 429 uri)) →
      create_get_request uri (out n) = Except.ok body →
      make_get_request uri out = (Except.ok body, n + 1)) ∧
    (∀ (uri : String) (out : Nat → AttemptOutcome),
      (∀ i, i < 7 → create_get_request uri (out i) =
        Except.error (CatalogError.httpError 429 uri)) →
      make_get_request uri out = (Except.error (CatalogError.httpError 429 uri), 7)) := by
  refine ⟨rfl, ?_, ?_, ?_⟩
  · intro uri out e h hc
    exact retryIf_error_noretry retryStrategy shouldRetry
      (fun i => create_get_request uri (out i)) 0 e h hc
  · intro uri out n body hn hfail hok
    have h7 : n ≤ retryStrategy.length := by
      have : retryStrategy.length = 6 := rfl
      omega
    have := retryIf_succ_after shouldRetry (fun i => create_get_request uri (out i)) body
      n retryStrategy 0 h7
      (fun i hi1 hi2 => ⟨CatalogError.httpError 429 uri, hfail i (by omega), rfl⟩)
      (by simpa using hok)
    unfold make_get_request
    rw [this]
    simp
  · intro uri out hfail
    have := retryIf_all_fail shouldRetry (fun i => create_get_request uri (out i))
      (CatalogError.httpError 429 uri) rfl retryStrategy 0
      (fun i hi1 hi2 => hfail i (by
        have : retryStrategy.length = 6 := rfl
        omega))
    unfold make_get_request
    rw [this]
    rfl

/-- Witness for C6 (amended): a single 500 response is terminal after one
attempt, with no retry. -/
theorem c6_witness :
    create_get_request "u" ((fun _ => AttemptOutcome.response 500 "x") 0) =
      Except.error (CatalogError.httpError 500 "u") ∧
    shouldRetry (CatalogError.httpError 500 "u") = false ∧
    make_get_request "u" (fun _ => AttemptOutcome.response 500 "x") =
      (Except.error (CatalogError.httpError 500 "u"), 1) :=
  ⟨by decide, by decide,
   c6_retry_policy.2.1 "u" (fun _ => AttemptOutcome.response 500 "x")
     (CatalogError.httpError 500 "u") (by decide) (by decide)⟩

/-! Claim C3: uniqueness and idempotence of the add operations. -/

theorem showsUnique_add_show (u : UserDataV1) (s : Show)
    (h : showsUnique u.subscribed_shows) : showsUnique (add_show u s).subscribed_shows := by
  unfold add_show
  split
  · exact h
  next hc =>
    unfold showsUnique at h ⊢
    have hnotin : s.id ∉ u.subscribed_shows.map (fun x => x.id) := by
      intro hmem
      obtain ⟨x, hx, hxid⟩ := List.mem_map.mp hmem
      exact hc (by
        unfold containsShow
        rw [List.any_eq_true]
        exact ⟨x, hx, by rw [beq_iff_eq]; exact hxid⟩)
    have hperm :=
      (List.perm_insertionSort Show.leP (u.subscribed_shows ++ [s])).map (fun x => x.id)
    refine List.Perm.nodup hperm.symm ?_
    rw [List.map_append, List.nodup_append]
    refine ⟨h, List.nodup_singleton _, ?_⟩
    intro a ha hb
    simp only [List.map_cons, List.map_nil, List.mem_singleton] at hb
    subst hb
    exact hnotin ha

theorem epsUnique_addLoop : ∀ (es acc : List Episode) (added : Bool),
    epsUnique acc → epsUnique (addEpisodesLoop acc added es).1 := by
  intro es
  induction es with
  | nil => intro acc added h; exact h
  | cons e rest ih =>
    intro acc added h
    unfold addEpisodesLoop
    split
    · exact ih acc added h
    next hc =>
      refine ih (acc ++ [e]) true ?_
      unfold epsUnique at h ⊢
      rw [List.map_append, List.nodup_append]
      refine ⟨h, List.nodup_singleton _, ?_⟩
      intro a ha hb
      simp only [List.map_cons, List.map_nil, List.mem_singleton] at hb
      subst hb
      obtain ⟨x, hx, hxk⟩ := List.mem_map.mp ha
      refine hc ?_
      unfold containsEpisode
      rw [List.any_eq_true]
      refine ⟨x, hx, ?_⟩
      have h1 : x.episode_id = e.episode_id := congrArg Prod.fst hxk
      have h2 : x.show_id = e.show_id := congrArg Prod.snd hxk
      rw [Bool.and_eq_true, beq_iff_eq, beq_iff_eq]
      exact ⟨h1, h2⟩

theorem add_show_eps_unchanged (u : UserDataV1) (s : Show) :
    (add_show u s).unwatched_episodes = u.unwatched_episodes := by
  unfold add_show
  split <;> rfl

theorem add_episodes_shows_unchanged (u : UserDataV1) (es : List Episode) :
    (add_episodes u es).subscribed_shows = u.subscribed_shows := by
  simp only [add_episodes]
  split <;> rfl

theorem epsUnique_add_episodes (u : UserDataV1) (es : List Episode)
    (h : epsUnique u.unwatched_episodes) : epsUnique (add_episodes u es).unwatched_episodes := by
  simp only [add_episodes]
  split
  · have hl := epsUnique_addLoop es u.unwatched_episodes false h
    unfold epsUnique at hl ⊢
    have hperm :=
      (List.perm_insertionSort Episode.leP
        (addEpisodesLoop u.unwatched_episodes false es).1).map
        (fun e => (e.episode_id, e.show_id))
    exact List.Perm.nodup hperm.symm hl
  · exact epsUnique_addLoop es u.unwatched_episodes false h

theorem runAddOps_unique : ∀ (ops : List AddOp) (u : UserDataV1),
    showsUnique u.subscribed_shows → epsUnique u.unwatched_episodes →
    showsUnique (runAddOps u ops).subscribed_shows ∧
    epsUnique (runAddOps u ops).unwatched_episodes := by
  intro ops
  induction ops with
  | nil => intro u h1 h2; exact ⟨h1, h2⟩
  | cons op rest ih =>
    intro u h1 h2
    cases op with
    | addShowOp s =>
      have e1 : runAddOps u (AddOp.addShowOp s :: rest) = runAddOps (add_show u s) rest := rfl
      rw [e1]
      refine ih (add_show u s) (showsUnique_add_show u s h1) ?_
      rw [add_show_eps_unchanged]
      exact h2
    | addEpsOp es =>
      have e1 : runAddOps u (AddOp.addEpsOp es :: rest) = runAddOps (add_episodes u es) rest := rfl
      rw [e1]
      refine ih (add_episodes u es) ?_ (epsUnique_add_episodes u es h2)
      rw [add_episodes_shows_unchanged]
      exact h1

theorem add_show_of_contains (u : UserDataV1) (s : Show)
    (h : containsShow u.subscribed_shows s = true) : add_show u s = u := by
  unfold add_show
  rw [if_pos h]

theorem containsShow_add_show (u : UserDataV1) (s : Show) :
    containsShow (add_show u s).subscribed_shows s = true := by
  unfold add_show
  split
  next hc => exact hc
  next hc =>
    unfold containsShow
    rw [List.any_eq_true]
    have hmem : s ∈ sortShows (u.subscribed_shows ++ [s]) := by
      have hperm := List.perm_insertionSort Show.leP (u.subscribed_shows ++ [s])
      exact hperm.mem_iff.mpr (by simp)
    exact ⟨s, hmem, by simp⟩

theorem add_show_idem (u : UserDataV1) (s : Show) :
    add_show (add_show u s) s = add_show u s :=
  add_show_of_contains (add_show u s) s (containsShow_add_show u s)

theorem addLoop_noop : ∀ (es acc : List Episode) (added : Bool),
    (∀ e ∈ es, containsEpisode acc e = true) →
    addEpisodesLoop acc added es = (acc, added) := by
  intro es
  induction es with
  | nil => intro acc added _; rfl
  | cons e rest ih =>
    intro acc added h
    unfold addEpisodesLoop
    rw [if_pos (h e (by simp))]
    exact ih acc added (fun x hx => h x (by simp [hx]))

theorem add_episodes_of_all_contained (u : UserDataV1) (es : List Episode)
    (h : ∀ e ∈ es, containsEpisode u.unwatched_episodes e = true) :
    add_episodes u es = u := by
  simp only [add_episodes]
  rw [addLoop_noop es u.unwatched_episodes false h]
  rfl

theorem containsEpisode_append (acc l2 : List Episode) (x : Episode)
    (h : containsEpisode acc x = true) : containsEpisode (acc ++ l2) x = true := by
  unfold containsEpisode at h ⊢
  rw [List.any_eq_true] at h ⊢
  obtain ⟨y, hy, hp⟩ := h
  exact ⟨y, List.mem_append_left _ hy, hp⟩

theorem addLoop_contains_mono : ∀ (es acc : List Episode) (added : Bool) (x : Episode),
    containsEpisode acc x = true →
    containsEpisode (addEpisodesLoop acc added es).1 x = true := by
  intro es
  induction es with
  | nil => intro acc added x h; exact h
  | cons e rest ih =>
    intro acc added x h
    unfold addEpisodesLoop
    split
    · exact ih acc added x h
    · exact ih (acc ++ [e]) true x (containsEpisode_append acc [e] x h)

theorem addLoop_mem_all : ∀ (es acc : List Episode) (added : Bool) (e : Episode),
    e ∈ es → containsEpisode (addEpisodesLoop acc added es).1 e = true := by
  intro es
  induction es with
  | nil => intro acc added e h; cases h
  | cons e0 rest ih =>
    intro acc added e h
    unfold addEpisodesLoop
    rcases List.mem_cons.mp h with he | he
    · subst he
      split
      next hc => exact addLoop_contains_mono rest acc added e hc
      next hc =>
        refine addLoop_contains_mono rest (acc ++ [e]) true e ?_
        unfold containsEpisode
        rw [List.any_eq_true]
        exact ⟨e, List.mem_append_right _ (by simp), by simp⟩
    · split
      · exact ih acc added e he
      · exact ih (acc ++ [e0]) true e he

theorem contains_of_perm (l l2 : List Episode) (hperm : List.Perm l l2) (e : Episode)
    (h : containsEpisode l e = true) : containsEpisode l2 e = true := by
  unfold containsEpisode at h ⊢
  rw [List.any_eq_true] at h ⊢
  obtain ⟨x, hx, hp⟩ := h
  exact ⟨x, hperm.mem_iff.mp hx, hp⟩

theorem add_episodes_mem (u : UserDataV1) (es : List Episode) (e : Episode) (h : e ∈ es) :
    containsEpisode (add_episodes u es).unwatched_episodes e = true := by
  simp only [add_episodes]
  split
  · exact contains_of_perm _ _ (List.perm_insertionSort Episode.leP _).symm e
      (addLoop_mem_all es u.unwatched_episodes false e h)
  · exact addLoop_mem_all es u.unwatched_episodes false e h

theorem add_episodes_idem (u : UserDataV1) (es : List Episode) :
    add_episodes (add_episodes u es) es = add_episodes u es :=
  add_episodes_of_all_contained (add_episodes u es) es
    (fun e he => add_episodes_mem u es e he)

/-- Claim C3: starting from a store whose collections are duplicate-free,
any sequence of `add_show`/`add_episodes` calls keeps the subscribed-show
collection free of repeated ids and the unwatched-episode collection free of
repeated (episode id, show id) keys; and adding the same show or the same
episode batch a second time leaves the respective collection's size
unchanged (the second add is a no-op). -/
theorem c3_unique_and_idempotent :
    (∀ (u : UserDataV1) (ops : List AddOp),
      showsUnique u.subscribed_shows → epsUnique u.unwatched_episodes →
      showsUnique (runAddOps u ops).subscribed_shows ∧
      epsUnique (runAddOps u ops).unwatched_episodes) ∧
    (∀ (u : UserDataV1) (s : Show),
      (add_show (add_show u s) s).subscribed_shows.length =
        (add_show u s).subscribed_shows.length) ∧
    (∀ (u : UserDataV1) (es : List Episode),
      (add_episodes (add_episodes u es) es).unwatched_episodes.length =
        (add_episodes u es).unwatched_episodes.length) := by
  refine ⟨?_, ?_, ?_⟩
  · intro u ops h1 h2
    exact runAddOps_unique ops u h1 h2
  · intro u s
    rw [add_show_idem u s]
  · intro u es
    rw [add_episodes_idem u es]

/-- Witness for C3: the fixture store has unique collections, and they remain
unique after adding its show again and one episode batch. -/
theorem c3_witness :
    (showsUnique u0.subscribed_shows ∧ epsUnique u0.unwatched_episodes) ∧
    (showsUnique
        (runAddOps u0 [AddOp.addShowOp show1,
          AddOp.addEpsOp [mkEp 15 1 1 5 none false]]).subscribed_shows ∧
      epsUnique
        (runAddOps u0 [AddOp.addShowOp show1,
          AddOp.addEpsOp [mkEp 15 1 1 5 none false]]).unwatched_episodes) :=
  ⟨⟨by decide, by decide⟩,
   c3_unique_and_idempotent.1 u0
     [AddOp.addShowOp show1, AddOp.addEpsOp [mkEp 15 1 1 5 none false]]
     (by decide) (by decide)⟩

/-! Claims C1 and C2: the watch-marking algorithm. -/

theorem epNumLe_refl (p : Nat × Nat) : epNumLe p p := by
  unfold epNumLe
  omega

theorem epNumLe_trans (p q r : Nat × Nat) (h1 : epNumLe p q) (h2 : epNumLe q r) :
    epNumLe p r := by
  unfold epNumLe at h1 h2 ⊢
  omega

theorem egt_lt (e : Episode) (p : Nat × Nat) (h : episode_is_greater_than e p = true) :
    epNumLe p (e.season, e.number) := by
  unfold episode_is_greater_than at h
  show p.1 < e.season ∨ (p.1 = e.season ∧ p.2 ≤ e.number)
  split at h
  next hs =>
    simp only [decide_eq_true_eq] at h
    omega
  next hs =>
    simp only [decide_eq_true_eq] at h
    omega

theorem cleanup_mono (sid : Nat) : ∀ (l : List Episode) (lw : Nat × Nat) (stop : Bool),
    epNumLe lw (cleanupWatched sid l lw stop).2 := by
  intro l
  induction l with
  | nil => intro lw stop; exact epNumLe_refl lw
  | cons e rest ih =>
    intro lw stop
    unfold cleanupWatched
    split
    next hcond =>
      split
      next hw =>
        exact epNumLe_trans lw (e.season, e.number) _ (egt_lt e lw hcond.2)
          (ih (e.season, e.number) stop)
      next hw => exact ih lw true
    next hcond => exact ih lw stop

theorem cleanup_sublist (sid : Nat) : ∀ (l : List Episode) (lw : Nat × Nat) (stop : Bool),
    List.Sublist (cleanupWatched sid l lw stop).1 l := by
  intro l
  induction l with
  | nil => intro lw stop; exact List.Sublist.refl []
  | cons e rest ih =>
    intro lw stop
    unfold cleanupWatched
    split
    · split
      · exact List.Sublist.cons e (ih _ _)
      · exact List.Sublist.cons₂ e (ih _ _)
    · exact List.Sublist.cons₂ e (ih _ _)

theorem findAux_idx_ge (sid : Nat) : ∀ (shows : List Show) (i : Nat) (lw : Nat × Nat)
    (idx : Option Nat) (j : Nat),
    (findShowPointerAux sid shows i lw idx).2 = some j → idx = some j ∨ i ≤ j := by
  intro shows
  induction shows with
  | nil => intro i lw idx j h; exact Or.inl h
  | cons s rest ih =>
    intro i lw idx j h
    unfold findShowPointerAux at h
    split at h
    · rcases ih (i + 1) s.last_watched_episode (some i) j h with h1 | h1
      · injection h1 with h2
        exact Or.inr (by omega)
      · exact Or.inr (by omega)
    · rcases ih (i + 1) lw idx j h with h1 | h1
      · exact Or.inl h1
      · exact Or.inr (by omega)

theorem findAux_no_match (sid : Nat) : ∀ (shows : List Show) (i : Nat) (lw : Nat × Nat)
    (idx : Option Nat),
    (∀ s ∈ shows, s.id ≠ sid) →
    findShowPointerAux sid shows i lw idx = (lw, idx) := by
  intro shows
  induction shows with
  | nil => intro i lw idx _; rfl
  | cons s rest ih =>
    intro i lw idx h
    unfold findShowPointerAux
    rw [if_neg (h s (by simp))]
    exact ih (i + 1) lw idx (fun x hx => h x (by simp [hx]))

theorem findAux_stale_idx_no_match (sid : Nat) : ∀ (shows : List Show) (i m : Nat)
    (lw : Nat × Nat),
    (findShowPointerAux sid shows i lw (some m)).2 = some m → m < i →
    ∀ s ∈ shows, s.id ≠ sid := by
  intro shows
  induction shows with
  | nil => intro i m lw _ _ s hs; cases hs
  | cons s0 rest ih =>
    intro i m lw h hm s hs
    unfold findShowPointerAux at h
    by_cases hid : s0.id = sid
    · rw [if_pos hid] at h
      exfalso
      rcases findAux_idx_ge sid rest (i + 1) s0.last_watched_episode (some i) m h with h1 | h1
      · injection h1 with h2
        omega
      · omega
    · rw [if_neg hid] at h
      rcases List.mem_cons.mp hs with he | he
      · subst he; exact hid
      · exact ih (i + 1) m lw h (by omega) s he

theorem findAux_set (sid : Nat) : ∀ (shows : List Show) (i : Nat) (lw : Nat × Nat)
    (idx : Option Nat) (p : Nat × Nat) (j : Nat),
    (findShowPointerAux sid shows i lw idx).2 = some j →
    (∀ k, idx = some k → k < i) →
    i ≤ j →
    findShowPointerAux sid (setPointerAt shows (j - i) p) i lw idx = (p, some j) := by
  intro shows
  induction shows with
  | nil =>
    intro i lw idx p j h hidx hij
    exfalso
    have := hidx j h
    omega
  | cons s rest ih =>
    intro i lw idx p j h hidx hij
    by_cases hid : s.id = sid
    · unfold findShowPointerAux at h
      rw [if_pos hid] at h
      by_cases hji : j = i
      · subst hji
        have hnm := findAux_stale_idx_no_match sid rest (j + 1) j s.last_watched_episode h
          (by omega)
        rw [Nat.sub_self]
        show findShowPointerAux sid ({ s with last_watched_episode := p } :: rest) j lw idx =
          (p, some j)
        unfold findShowPointerAux
        dsimp only
        rw [if_pos hid]
        exact findAux_no_match sid rest (j + 1) p (some j) hnm
      · have hj1 : j ≥ i + 1 := by
          rcases findAux_idx_ge sid rest (i + 1) s.last_watched_episode (some i) j h with h1 | h1
          · injection h1 with h2
            omega
          · omega
        have hsub : j - i = (j - (i + 1)) + 1 := by omega
        rw [hsub]
        show findShowPointerAux sid (s :: setPointerAt rest (j - (i + 1)) p) i lw idx =
          (p, some j)
        unfold findShowPointerAux
        rw [if_pos hid]
        exact ih (i + 1) s.last_watched_episode (some i) p j h
          (fun k hk => by injection hk with hk2; omega) hj1
    · unfold findShowPointerAux at h
      rw [if_neg hid] at h
      have hj1 : j ≥ i + 1 := by
        rcases findAux_idx_ge sid rest (i + 1) lw idx j h with h1 | h1
        · exfalso
          have := hidx j h1
          omega
        · omega
      have hsub : j - i = (j - (i + 1)) + 1 := by omega
      rw [hsub]
      show findShowPointerAux sid (s :: setPointerAt rest (j - (i + 1)) p) i lw idx = (p, some j)
      unfold findShowPointerAux
      rw [if_neg hid]
      exact ih (i + 1) lw idx p j h (fun k hk => by have := hidx k hk; omega) hj1

theorem forall2_markedEq_refl : ∀ l : List Episode, List.Forall₂ markedEq l l := by
  intro l
  induction l with
  | nil => exact List.Forall₂.nil
  | cons e rest ih => exact List.Forall₂.cons (Or.inl rfl) ih

theorem markNext_forall2 (sid : Nat) : ∀ l : List Episode,
    List.Forall₂ markedEq l (markNextEpisode sid l).2 := by
  intro l
  induction l with
  | nil => exact List.Forall₂.nil
  | cons e rest ih =>
    unfold markNextEpisode
    split
    · exact List.Forall₂.cons (Or.inr rfl) (forall2_markedEq_refl rest)
    · exact List.Forall₂.cons (Or.inl rfl) ih

theorem markSeason_forall2 (sid season : Nat) : ∀ l : List Episode,
    List.Forall₂ markedEq l (markSeason sid season l).2 := by
  intro l
  induction l with
  | nil => exact List.Forall₂.nil
  | cons e rest ih =>
    unfold markSeason
    split
    · exact List.Forall₂.cons (Or.inr rfl) ih
    · exact List.Forall₂.cons (Or.inl rfl) ih

theorem markEpisodeExact_forall2 (sid season number : Nat) : ∀ l : List Episode,
    List.Forall₂ markedEq l (markEpisodeExact sid season number l).2 := by
  intro l
  induction l with
  | nil => exact List.Forall₂.nil
  | cons e rest ih =>
    unfold markEpisodeExact
    split
    · exact List.Forall₂.cons (Or.inr rfl) ih
    · exact List.Forall₂.cons (Or.inl rfl) ih

theorem markPhase_forall2 (sid : Nat) (season episode : Option Nat) (l : List Episode) :
    List.Forall₂ markedEq l (markPhase sid season episode l).2 := by
  unfold markPhase
  rcases season with _ | s <;> rcases episode with _ | n
  · exact markNext_forall2 sid l
  · exact forall2_markedEq_refl l
  · exact markSeason_forall2 sid s l
  · exact markEpisodeExact_forall2 sid s n l

/-- Claim C1: a mark call that leaves a gap (a still-unwatched episode of the
show strictly between the watch pointer and the last-marked pair) advances no
pointer and deletes no episode — each slot of the unwatched list is unchanged
or merely has its watched flag set; and on the concrete scenario, marking
(1,4) from pointer (0,0) with (1,1)-(1,4) unwatched freezes the pointer and
keeps all four episodes, after which marking (1,1), (1,2), (1,3) in any order
collapses all four away in one pass and advances the pointer to (1,4). -/
theorem c1_gap_freeze_and_collapse :
    (∀ (u : UserDataV1) (sid : Nat) (season episode : Option Nat) (lm : Nat × Nat),
      (markPhase sid season episode u.unwatched_episodes).1 = some lm →
      hasGap (markPhase sid season episode u.unwatched_episodes).2 sid (pointerOf u sid) lm
        = true →
      (mark_as_watched u sid season episode).2.subscribed_shows = u.subscribed_shows ∧
      (mark_as_watched u sid season episode).2.unwatched_episodes =
        (markPhase sid season episode u.unwatched_episodes).2 ∧
      List.Forall₂ markedEq u.unwatched_episodes
        (mark_as_watched u sid season episode).2.unwatched_episodes) ∧
    ((mark_as_watched u0 1 (some 1) (some 4)).1 = some (1, 4) ∧
      pointerOf c1AfterFirst 1 = (0, 0) ∧
      c1AfterFirst.unwatched_episodes.map (fun e => (e.season, e.number, e.watched)) =
        [(1, 1, false), (1, 2, false), (1, 3, false), (1, 4, true)] ∧
      ∀ p ∈ c1Orders,
        (markSeq c1AfterFirst 1 p).unwatched_episodes = [] ∧
        pointerOf (markSeq c1AfterFirst 1 p) 1 = (1, 4)) := by
  constructor
  · intro u sid season episode lm h1 h2
    unfold pointerOf at h2
    have hmw : mark_as_watched u sid season episode =
        (some lm, { u with unwatched_episodes :=
          (markPhase sid season episode u.unwatched_episodes).2 }) := by
      unfold mark_as_watched reconcile
      simp only [h1]
      rw [if_pos h2]
    rw [hmw]
    exact ⟨rfl, rfl, markPhase_forall2 sid season episode u.unwatched_episodes⟩
  · exact ⟨by decide, by decide, by decide, by decide⟩

/-- Witness for C1: marking (1,4) in the fixture store creates a gap, and the
general conclusion holds there. -/
theorem c1_witness :
    ((markPhase 1 (some 1) (some 4) u0.unwatched_episodes).1 = some (1, 4) ∧
      hasGap (markPhase 1 (some 1) (some 4) u0.unwatched_episodes).2 1 (pointerOf u0 1) (1, 4)
        = true) ∧
    ((mark_as_watched u0 1 (some 1) (some 4)).2.subscribed_shows = u0.subscribed_shows ∧
      (mark_as_watched u0 1 (some 1) (some 4)).2.unwatched_episodes =
        (markPhase 1 (some 1) (some 4) u0.unwatched_episodes).2 ∧
      List.Forall₂ markedEq u0.unwatched_episodes
        (mark_as_watched u0 1 (some 1) (some 4)).2.unwatched_episodes) :=
  ⟨⟨by decide, by decide⟩,
   c1_gap_freeze_and_collapse.1 u0 1 (some 1) (some 4) (1, 4) (by decide) (by decide)⟩

theorem mark_pointer_mono (u : UserDataV1) (sid : Nat) (season episode : Option Nat) :
    epNumLe (pointerOf u sid) (pointerOf (mark_as_watched u sid season episode).2 sid) := by
  unfold mark_as_watched
  rcases hm : (markPhase sid season episode u.unwatched_episodes).1 with _ | lm
  · simp only [hm]
    exact epNumLe_refl _
  · simp only [hm]
    unfold reconcile
    split
    · exact epNumLe_refl _
    · rcases hidx : (findShowPointer u.subscribed_shows sid).2 with _ | i
      · simp only [hidx]
        exact epNumLe_refl _
      · simp only [hidx]
        have hset := findAux_set sid u.subscribed_shows 0 (0, 0) none
          (cleanupWatched sid (markPhase sid season episode u.unwatched_episodes).2
            (findShowPointer u.subscribed_shows sid).1 false).2 i hidx
          (fun k hk => by cases hk) (Nat.zero_le i)
        rw [Nat.sub_zero] at hset
        unfold findShowPointer at hset
        unfold pointerOf findShowPointer
        dsimp only
        rw [hset]
        exact cleanup_mono sid (markPhase sid season episode u.unwatched_episodes).2
          (findShowPointer u.subscribed_shows sid).1 false

/-- Claim C2: along any sequence of `mark_as_watched` calls for one show, the
watch pointer read after each call is non-decreasing in (season, number)
lexicographic order. -/
theorem c2_pointer_monotonic :
    ∀ (u : UserDataV1) (sid : Nat) (calls : List (Option Nat × Option Nat)) (i : Nat),
      i < calls.length →
      epNumLe (pointerOf (markCalls u sid (List.take i calls)) sid)
        (pointerOf (markCalls u sid (List.take (i + 1) calls)) sid) := by
  intro u sid calls i h
  have ht : List.take (i + 1) calls = List.take i calls ++ [calls.get ⟨i, h⟩] := by
    rw [List.take_succ, List.getElem?_eq_getElem h]
    rfl
  rw [ht]
  unfold markCalls
  rw [List.foldl_append]
  exact mark_pointer_mono
    (List.foldl (fun st c => (mark_as_watched st sid c.1 c.2).2) u (List.take i calls)) sid
    (calls.get ⟨i, h⟩).1 (calls.get ⟨i, h⟩).2

/-- Witness for C2: a one-call sequence against the fixture store. -/
theorem c2_witness :
    (0 : Nat) < ([(some 1, some 1)] : List (Option Nat × Option Nat)).length ∧
    epNumLe
      (pointerOf (markCalls u0 1 (List.take 0 ([(some 1, some 1)] :
        List (Option Nat × Option Nat)))) 1)
      (pointerOf (markCalls u0 1 (List.take 1 ([(some 1, some 1)] :
        List (Option Nat × Option Nat)))) 1) :=
  ⟨by decide, c2_pointer_monotonic u0 1 [(some 1, some 1)] 0 (by decide)⟩

/-! Claim C9: sortedness of the unwatched list across mutations. -/

theorem epKeysEq_of_markedEq (a b : Episode) (h : markedEq a b) : epKeysEq a b := by
  unfold markedEq at h
  unfold epKeysEq
  rcases h with h | h <;> subst h <;> exact ⟨rfl, rfl, rfl⟩

theorem leP_congr (a a2 b b2 : Episode) (ha : epKeysEq a a2) (hb : epKeysEq b b2)
    (h : Episode.leP a b) : Episode.leP a2 b2 := by
  obtain ⟨ha1, ha2, ha3⟩ := ha
  obtain ⟨hb1, hb2, hb3⟩ := hb
  rw [Episode.leP_iff] at h ⊢
  omega

theorem forall2_exists_left {R : Episode → Episode → Prop} :
    ∀ {l l2 : List Episode}, List.Forall₂ R l l2 → ∀ b ∈ l2, ∃ a ∈ l, R a b := by
  intro l l2 hf
  induction hf with
  | nil => intro b hb; cases hb
  | cons h1 htail ih =>
    intro b2 hb2
    rcases List.mem_cons.mp hb2 with he | he
    · subst he
      exact ⟨_, by simp, h1⟩
    · obtain ⟨a, ha, hr⟩ := ih b2 he
      exact ⟨a, by simp [ha], hr⟩

theorem pairwise_leP_of_keys : ∀ {l l2 : List Episode}, List.Forall₂ epKeysEq l l2 →
    List.Pairwise Episode.leP l → List.Pairwise Episode.leP l2 := by
  intro l l2 hf
  induction hf with
  | nil => intro _; exact List.Pairwise.nil
  | cons h1 htail ih =>
    intro hp
    rcases List.pairwise_cons.mp hp with ⟨hhead, htl⟩
    refine List.pairwise_cons.mpr ⟨?_, ih htl⟩
    intro b2 hb2
    obtain ⟨b, hb, hkb⟩ := forall2_exists_left htail b2 hb2
    exact leP_congr _ _ _ _ h1 hkb (hhead b hb)

theorem addLoop_true : ∀ (es acc : List Episode), (addEpisodesLoop acc true es).2 = true := by
  intro es
  induction es with
  | nil => intro acc; rfl
  | cons e rest ih =>
    intro acc
    unfold addEpisodesLoop
    split
    · exact ih acc
    · exact ih (acc ++ [e])

theorem addLoop_false_acc : ∀ (es acc : List Episode) (added : Bool),
    (addEpisodesLoop acc added es).2 = false → (addEpisodesLoop acc added es).1 = acc := by
  intro es
  induction es with
  | nil => intro acc added _; rfl
  | cons e rest ih =>
    intro acc added h
    unfold addEpisodesLoop at h ⊢
    by_cases hc : containsEpisode acc e = true
    · rw [if_pos hc] at h ⊢
      exact ih acc added h
    · rw [if_neg hc] at h
      exact absurd (addLoop_true rest (acc ++ [e])) (by simp [h])

theorem sortedEps_add_episodes (u : UserDataV1) (es : List Episode)
    (h : sortedEps u.unwatched_episodes) :
    sortedEps (add_episodes u es).unwatched_episodes := by
  simp only [add_episodes]
  split
  · exact List.sorted_insertionSort Episode.leP _
  next hc =>
    have hf : (addEpisodesLoop u.unwatched_episodes false es).2 = false := by
      cases hb : (addEpisodesLoop u.unwatched_episodes false es).2
      · rfl
      · exact absurd hb hc
    dsimp only
    rw [addLoop_false_acc es u.unwatched_episodes false hf]
    exact h

theorem sortedEps_mark (u : UserDataV1) (sid : Nat) (season episode : Option Nat)
    (h : sortedEps u.unwatched_episodes) :
    sortedEps (mark_as_watched u sid season episode).2.unwatched_episodes := by
  have hmp : List.Pairwise Episode.leP (markPhase sid season episode u.unwatched_episodes).2 :=
    pairwise_leP_of_keys
      (List.Forall₂.imp (fun a b hm => epKeysEq_of_markedEq a b hm)
        (markPhase_forall2 sid season episode u.unwatched_episodes)) h
  unfold mark_as_watched
  rcases hm : (markPhase sid season episode u.unwatched_episodes).1 with _ | lm
  · simp only [hm]
    exact hmp
  · simp only [hm]
    unfold reconcile
    split
    · exact hmp
    · exact List.Pairwise.sublist (cleanup_sublist sid _ _ _) hmp

theorem sortedEps_remove (u : UserDataV1) (s : Show) (h : sortedEps u.unwatched_episodes) :
    sortedEps (remove_episodes u s).unwatched_episodes := by
  unfold remove_episodes
  exact List.Pairwise.sublist (List.filter_sublist _) h

theorem forall2_epKeysEq_refl : ∀ l : List Episode, List.Forall₂ epKeysEq l l := by
  intro l
  induction l with
  | nil => exact List.Forall₂.nil
  | cons e rest ih => exact List.Forall₂.cons ⟨rfl, rfl, rfl⟩ ih

theorem updateEpisodeList_forall2 (e : Episode) : ∀ (l l2 : List Episode),
    updateEpisodeList e l = some l2 →
    (∀ x ∈ l, x.episode_id = e.episode_id → x.season = e.season ∧ x.number = e.number) →
    List.Forall₂ epKeysEq l l2 := by
  intro l
  induction l with
  | nil => intro l2 h _; cases h
  | cons x rest ih =>
    intro l2 h hk
    unfold updateEpisodeList at h
    split at h
    next hid =>
      injection h with h2
      subst h2
      refine List.Forall₂.cons ?_ (forall2_epKeysEq_refl rest)
      have hx := hk x (by simp) hid
      exact ⟨rfl, hx.1, hx.2⟩
    next hid =>
      rcases hrec : updateEpisodeList e rest with _ | l3
      · rw [hrec] at h
        cases h
      · rw [hrec] at h
        injection h with h2
        subst h2
        exact List.Forall₂.cons ⟨rfl, rfl, rfl⟩
          (ih l3 hrec (fun y hy => hk y (by simp [hy])))

theorem sortedEps_update (u : UserDataV1) (e : Episode)
    (h : sortedEps u.unwatched_episodes)
    (hk : ∀ x ∈ u.unwatched_episodes, x.episode_id = e.episode_id →
      x.season = e.season ∧ x.number = e.number) :
    sortedEps (update_episode u e).2.unwatched_episodes := by
  unfold update_episode
  rcases hup : updateEpisodeList e u.unwatched_episodes with _ | l2
  · simp only [hup]
    exact h
  · simp only [hup]
    exact pairwise_leP_of_keys (updateEpisodeList_forall2 e u.unwatched_episodes l2 hup hk) h

theorem sortedEps_runOps : ∀ (ops : List StoreOp) (u : UserDataV1),
    sortedEps u.unwatched_episodes →
    (∀ op ∈ ops, keepsKeys op = true) →
    sortedEps ((ops.foldl applyStoreOp u).unwatched_episodes) := by
  intro ops
  induction ops with
  | nil => intro u h _; exact h
  | cons op rest ih =>
    intro u h hall
    have e1 : (op :: rest).foldl applyStoreOp u = rest.foldl applyStoreOp (applyStoreOp u op) :=
      rfl
    rw [e1]
    refine ih (applyStoreOp u op) ?_ (fun x hx => hall x (by simp [hx]))
    cases op with
    | addEps es => exact sortedEps_add_episodes u es h
    | mark sid season episode => exact sortedEps_mark u sid season episode h
    | removeEps s => exact sortedEps_remove u s h
    | updateEp e => exact absurd (hall (StoreOp.updateEp e) (by simp)) (by simp [keepsKeys])

/-- Claim C9 (amended): starting from a store with a sorted unwatched list,
any sequence of `add_episodes`, `mark_as_watched` and `remove_episodes` calls
keeps the list sorted by the Episode ordering; `update_episode` keeps it
sorted only when the update leaves the stored episode's (season, number)
unchanged — an update that moves an episode does not re-sort. -/
theorem c9_sorted_invariant :
    (∀ (u : UserDataV1) (ops : List StoreOp),
      sortedEps u.unwatched_episodes →
      (∀ op ∈ ops, keepsKeys op = true) →
      sortedEps ((ops.foldl applyStoreOp u).unwatched_episodes)) ∧
    (∀ (u : UserDataV1) (e : Episode),
      sortedEps u.unwatched_episodes →
      (∀ x ∈ u.unwatched_episodes, x.episode_id = e.episode_id →
        x.season = e.season ∧ x.number = e.number) →
      sortedEps (update_episode u e).2.unwatched_episodes) :=
  ⟨fun u ops h hall => sortedEps_runOps ops u h hall,
   fun u e h hk => sortedEps_update u e h hk⟩

/-- Witness for C9 (amended): a mark-then-remove sequence on the fixture
store keeps the unwatched list sorted. -/
theorem c9_witness :
    (sortedEps u0.unwatched_episodes ∧
      ∀ op ∈ ([StoreOp.mark 1 none none, StoreOp.removeEps show1] : List StoreOp),
        keepsKeys op = true) ∧
    sortedEps ((([StoreOp.mark 1 none none, StoreOp.removeEps show1] :
      List StoreOp).foldl applyStoreOp u0).unwatched_episodes) :=
  ⟨⟨by decide, by decide⟩,
   c9_sorted_invariant.1 u0 [StoreOp.mark 1 none none, StoreOp.removeEps show1]
     (by decide) (by decide)⟩

/-- Counterexample to C9: the store `u9` is sorted, yet `update_episode` with
a record that moves episode id 1 to season 1 number 3 leaves the unwatched
list unsorted (it rewrites season/number in place without re-sorting). -/
theorem c9_counterexample :
    sortedEps u9.unwatched_episodes ∧
    (update_episode u9 e9).1 = true ∧
    ¬ sortedEps (update_episode u9 e9).2.unwatched_episodes := by
  exact ⟨by decide, by decide, by decide⟩

end Bingers
